import Mathlib

/-!
Verification of the digiid-ts core (src/digiid.ts): the DigiID URI builder
`generateDigiIDUri` and the callback verifier `verifyDigiIDCallback`.

The source is TypeScript running on Node.  The embedding below translates the
two exported functions directly.  Platform facilities used by the source are
modelled as follows:

* `new URL(s)` (WHATWG URL parser) is modelled by `parseURL`.  The model keeps
  the behaviours the source depends on: splitting scheme / authority / path /
  query / fragment, defaulting an empty path to "/", stripping the default
  port (":80" for http, ":443" for https) and an empty port from `host`,
  stripping userinfo, rejecting an absent scheme or an empty host, and the
  special-scheme leniency of consuming any run of slashes after the colon.
  WHATWG normalisations not exercised by any claim (ASCII-lowercasing of the
  scheme and host, punycode, percent-encoding of path characters, dot-segment
  removal) are left out; the model keeps those characters verbatim.
* `url.searchParams.get(k)` is modelled by `searchParamsGet`: the query is
  split on '&', empty segments are discarded, each segment splits at its
  first '=', keys and values are percent-decoded with '+' mapped to space,
  and the first segment whose decoded key matches wins.
* `crypto.randomBytes(n)` is an injected capability `randomBytes : Nat → List
  Nat` (each entry a byte value; callers of the model reduce modulo 256 when
  hex-encoding).
* `require('digibyte-message')`-based signature checking is an injected
  capability returning a `SigOutcome`: either a boolean or a thrown
  exception.  A thrown exception is either a `DigiIDError` (the library's
  own error class, constructor `.digiid`) or any other JS exception
  (constructor `.other`); `verifyDigiIDCallback` classifies them exactly as
  the source's `instanceof DigiIDError` test does.
* `throw new DigiIDError(msg)` / promise rejection is modelled by
  `Except.error (.digiid msg)`.  Node's `new URL` failure message is the
  constant "Invalid URL", which the source interpolates into its own
  diagnostics.
-/

/-- A thrown JavaScript exception: either an instance of the library's
`DigiIDError` class carrying a message, or any other exception. -/
inductive JSError where
  | digiid (message : String)
  | other (message : String)
deriving DecidableEq, Repr

/-- Model of the WHATWG `URL` record, restricted to the fields the source
reads: `protocol` (scheme with trailing ':'), `host` (authority with
userinfo and default/empty port removed), `pathname` and `search` (the query
string without the leading '?'). -/
structure URLRecord where
  protocol : String
  host : String
  pathname : String
  search : String
deriving DecidableEq, Repr

/-- Characters that may appear inside an authority component: everything up
to the first '/', '?' or '#'. -/
def authorityChar (c : Char) : Bool := !(c == '/' || c == '?' || c == '#')

/-- Characters that may appear inside a path component: everything up to the
first '?' or '#'. -/
def pathChar (c : Char) : Bool := !(c == '?' || c == '#')

/-- Characters allowed after the first character of a URL scheme. -/
def schemeCharOk (c : Char) : Bool :=
  c.isAlpha || c.isDigit || c == '+' || c == '-' || c == '.'

/-- WHATWG default-port stripping: a trailing ":80" is dropped from the host
when the scheme is http, ":443" when it is https, and a trailing ':' with an
empty port is always dropped. -/
def stripDefaultPort (scheme : String) (host : List Char) : List Char :=
  if host.contains ':' then
    let portRev := host.reverse.takeWhile (fun c => !(c == ':'))
    let port := portRev.reverse
    let base := ((host.reverse.dropWhile (fun c => !(c == ':'))).tail).reverse
    if port = [] ∨ (scheme = "http" ∧ port = ['8', '0']) ∨
        (scheme = "https" ∧ port = ['4', '4', '3']) then
      base
    else host
  else host

/-- Model of `new URL` on the character list of the input (returning `none`
where the constructor would throw `TypeError: Invalid URL`). -/
def parseURLChars (l : List Char) : Option URLRecord :=
  match l.dropWhile (fun c => !(c == ':')) with
  | [] => none
  | _ :: afterColon =>
    match l.takeWhile (fun c => !(c == ':')) with
    | [] => none
    | c0 :: restScheme =>
      if !c0.isAlpha then none
      else if !restScheme.all schemeCharOk then none
      else if ((afterColon.dropWhile (fun c => c == '/')).takeWhile authorityChar) = []
        then none
      else if stripDefaultPort ⟨c0 :: restScheme⟩
          ((((afterColon.dropWhile (fun c => c == '/')).takeWhile
            authorityChar).reverse.takeWhile (fun c => !(c == '@'))).reverse) = []
        then none
      else
        some ⟨⟨c0 :: restScheme⟩ ++ ":",
          ⟨stripDefaultPort ⟨c0 :: restScheme⟩
            ((((afterColon.dropWhile (fun c => c == '/')).takeWhile
              authorityChar).reverse.takeWhile (fun c => !(c == '@'))).reverse)⟩,
          ⟨if ((afterColon.dropWhile (fun c => c == '/')).dropWhile
                authorityChar).takeWhile pathChar = [] then ['/']
            else ((afterColon.dropWhile (fun c => c == '/')).dropWhile
              authorityChar).takeWhile pathChar⟩,
          ⟨match ((afterColon.dropWhile (fun c => c == '/')).dropWhile
              authorityChar).dropWhile pathChar with
            | '?' :: qs => qs.takeWhile (fun c => !(c == '#'))
            | _ => []⟩⟩

/-- Model of `new URL` on strings. -/
def parseURL (s : String) : Option URLRecord := parseURLChars s.data

/-- Value of a hexadecimal digit character, `none` for a non-hex character. -/
def hexVal (c : Char) : Option Nat :=
  if '0' ≤ c ∧ c ≤ '9' then some (c.toNat - 48)
  else if 'a' ≤ c ∧ c ≤ 'f' then some (c.toNat - 87)
  else if 'A' ≤ c ∧ c ≤ 'F' then some (c.toNat - 55)
  else none

/-- Percent-decoding as performed by `URLSearchParams`: '+' becomes a space
and "%hh" becomes the decoded byte; a '%' not followed by two hex digits is
kept verbatim. -/
def decodeChars : List Char → List Char
  | [] => []
  | '+' :: rest => ' ' :: decodeChars rest
  | '%' :: a :: b :: rest =>
    match hexVal a, hexVal b with
    | some hi, some lo => Char.ofNat (16 * hi + lo) :: decodeChars rest
    | _, _ => '%' :: decodeChars (a :: b :: rest)
  | c :: rest => c :: decodeChars rest

/-- Split a query string on '&' separators (the splitting step of
`URLSearchParams`). -/
def splitAmp : List Char → List (List Char)
  | [] => [[]]
  | c :: rest =>
    if c == '&' then [] :: splitAmp rest
    else
      match splitAmp rest with
      | [] => [[c]]
      | h :: t => (c :: h) :: t

/-- The key of a query segment: the characters before the first '='. -/
def pairKeyChars (p : List Char) : List Char := p.takeWhile (fun c => !(c == '='))

/-- The value of a query segment: the characters after the first '=', or
empty when the segment has no '='. -/
def pairValChars (p : List Char) : List Char :=
  match p.dropWhile (fun c => !(c == '=')) with
  | [] => []
  | _ :: v => v

/-- Model of `url.searchParams.get(key)`. -/
def searchParamsGet (query : String) (key : String) : Option String :=
  let pairs := (splitAmp query.data).filter (fun p => !p.isEmpty)
  match pairs.find? (fun p => decodeChars (pairKeyChars p) == key.data) with
  | some p => some ⟨decodeChars (pairValChars p)⟩
  | none => none

/-- Options accepted by `generateDigiIDUri` (src/types.ts `DigiIDUriOptions`);
an absent optional field is `none` / `false`. -/
structure DigiIDUriOptions where
  callbackUrl : String
  nonce : Option String := none
  unsecure : Bool := false

/-- The wallet callback payload (src/types.ts `DigiIDCallbackData`). -/
structure DigiIDCallbackData where
  address : String
  uri : String
  signature : String

/-- `expectedCallbackUrl` may be a string or an already-parsed `URL` object
(src/types.ts: `string | URL`). -/
inductive StringOrURL where
  | str (s : String)
  | url (u : URLRecord)

/-- Options accepted by `verifyDigiIDCallback` (src/types.ts
`DigiIDVerifyOptions`). -/
structure DigiIDVerifyOptions where
  expectedCallbackUrl : StringOrURL
  expectedNonce : Option String := none

/-- The success value of `verifyDigiIDCallback` (src/types.ts
`DigiIDVerificationResult`; `isValid` is literally `true` there). -/
structure DigiIDVerificationResult where
  isValid : Bool
  address : String
  nonce : String
deriving DecidableEq, Repr

/-- Outcome of invoking the signature-verification capability: a returned
boolean or a thrown exception. -/
inductive SigOutcome where
  | ok (b : Bool)
  | threw (e : JSError)

/- Error message templates, verbatim from src/digiid.ts. -/

/-- Message thrown when `options.callbackUrl` is falsy. -/
def requiredCallbackMsg : String := "Callback URL is required."

/-- Message thrown when `new URL(options.callbackUrl)` throws (Node's URL
error message is the constant "Invalid URL"). -/
def invalidCallbackUrlMsg : String := "Invalid callback URL: Invalid URL"

/-- Message thrown when the unsecure flag is set but the scheme is not http. -/
def unsecureHttpMsg : String :=
  "Unsecure flag is true, but callback URL does not use http protocol."

/-- Message thrown when the unsecure flag is unset but the scheme is not https. -/
def httpsRequiredMsg : String :=
  "Callback URL must use https protocol unless unsecure flag is set to true."

/-- Message thrown when a callback payload field is falsy. -/
def missingDataMsg : String :=
  "Missing required callback data: address, uri, or signature."

/-- Message thrown when the received URI does not parse. -/
def invalidCallbackUriMsg : String := "Invalid URI received in callback: Invalid URL"

/-- Message thrown when the received URI lacks the x or u query parameter. -/
def missingParamsMsg : String := "URI missing nonce (x) or unsecure (u) parameter."

/-- Message thrown when `expectedCallbackUrl` does not parse. -/
def invalidExpectedUrlMsg : String :=
  "Invalid expectedCallbackUrl provided: Invalid URL"

/-- Message thrown on a domain-and-path mismatch, interpolating the received
and the expected value. -/
def callbackMismatchMsg (received expected : String) : String :=
  "Callback URL mismatch: URI contained \"" ++ received ++ "\", expected \"" ++
    expected ++ "\""

/-- Message thrown when u=1 but the expected URL is not http. -/
def schemeU1Msg : String :=
  "URI indicates unsecure (u=1), but expectedCallbackUrl is not http."

/-- Message thrown when u=0 but the expected URL is not https. -/
def schemeU0Msg : String :=
  "URI indicates secure (u=0), but expectedCallbackUrl is not https."

/-- Message thrown on a nonce mismatch, interpolating the received and the
expected nonce. -/
def nonceMismatchMsg (received expected : String) : String :=
  "Nonce mismatch: URI contained \"" ++ received ++ "\", expected \"" ++
    expected ++ "\". Possible replay attack."

/-- Message thrown when the capability returns false. -/
def invalidSignatureMsg : String := "Invalid signature."

/-- Message wrapping a non-`DigiIDError` exception from the capability. -/
def unexpectedSigErrorMsg (original : String) : String :=
  "Unexpected error during signature verification: " ++ original

/-- Lowercase-hex digit for a value below 16 (the encoding used by
`Buffer.toString('hex')`). -/
def hexDigitChar (n : Nat) : Char :=
  if n < 10 then Char.ofNat (48 + n) else Char.ofNat (87 + n)

/-- Hex encoding of one byte (reduced modulo 256, the byte width). -/
def byteToHex (b : Nat) : List Char :=
  [hexDigitChar (b % 256 / 16), hexDigitChar (b % 16)]

/-- `buffer.toString('hex')`: lowercase hex encoding of a byte list. -/
def bytesToHex (bs : List Nat) : String :=
  ⟨bs.foldr (fun b acc => byteToHex b ++ acc) []⟩

/-- src/digiid.ts `generateNonce`: hex encoding of `randomBytes(16)`; the
secure random source is the injected capability `randomBytes`. -/
def generateNonce (randomBytes : Nat → List Nat) : String :=
  bytesToHex (randomBytes 16)

/-- src/digiid.ts `generateDigiIDUri`.  `randomBytes` is the injected
entropy capability consulted by `generateNonce`.  The nonce resolution
models the source's `options.nonce || generateNonce()`: a missing or
empty-string (falsy) nonce falls back to the generator. -/
def generateDigiIDUri (options : DigiIDUriOptions) (randomBytes : Nat → List Nat) :
    Except JSError String :=
  if options.callbackUrl = "" then .error (.digiid requiredCallbackMsg)
  else
    match parseURL options.callbackUrl with
    | none => .error (.digiid invalidCallbackUrlMsg)
    | some parsedUrl =>
      let domainAndPath := parsedUrl.host ++ parsedUrl.pathname
      let nonce :=
        match options.nonce with
        | some n => if n = "" then generateNonce randomBytes else n
        | none => generateNonce randomBytes
      let unsecureFlag := if options.unsecure then "1" else "0"
      if options.unsecure ∧ parsedUrl.protocol ≠ "http:" then
        .error (.digiid unsecureHttpMsg)
      else if ¬options.unsecure ∧ parsedUrl.protocol ≠ "https:" then
        .error (.digiid httpsRequiredMsg)
      else
        .ok ("digiid://" ++ domainAndPath ++ "?x=" ++ nonce ++ "&u=" ++ unsecureFlag)

/-- The source's `uri.replace(/^digiid:/, 'http:')`: substitute the scheme
for standard URL parsing, only when the literal "digiid:" is present at the
start. -/
def digiidToParsable (uri : String) : String :=
  match uri.data with
  | 'd' :: 'i' :: 'g' :: 'i' :: 'i' :: 'd' :: ':' :: rest =>
    ⟨'h' :: 't' :: 't' :: 'p' :: ':' :: rest⟩
  | _ => uri

/-- Step 4 of `verifyDigiIDCallback` (src lines 158-174): delegate to the
capability; a false return throws "Invalid signature.", a thrown
`DigiIDError` propagates unchanged (`instanceof DigiIDError`), any other
exception is wrapped. -/
def signatureStage (cd : DigiIDCallbackData) (receivedNonce : String)
    (verifySig : String → String → String → SigOutcome) :
    Except JSError DigiIDVerificationResult :=
  match verifySig cd.uri cd.address cd.signature with
  | .ok true => .ok ⟨true, cd.address, receivedNonce⟩
  | .ok false => .error (.digiid invalidSignatureMsg)
  | .threw (.digiid m) => .error (.digiid m)
  | .threw (.other m) => .error (.digiid (unexpectedSigErrorMsg m))

/-- Step 3 of `verifyDigiIDCallback` (src lines 153-156): the source's
`if (expectedNonce && receivedNonce !== expectedNonce)`; an absent or
empty-string (falsy) `expectedNonce` skips the check. -/
def nonceStage (cd : DigiIDCallbackData) (expectedNonce : Option String)
    (receivedNonce : String) (verifySig : String → String → String → SigOutcome) :
    Except JSError DigiIDVerificationResult :=
  match expectedNonce with
  | some en =>
    if en ≠ "" ∧ receivedNonce ≠ en then
      .error (.digiid (nonceMismatchMsg receivedNonce en))
    else signatureStage cd receivedNonce verifySig
  | none => signatureStage cd receivedNonce verifySig

/-- Step 2 of `verifyDigiIDCallback` (src lines 138-151): endpoint match and
transport-flag consistency, then the nonce stage. -/
def expectedStage (cd : DigiIDCallbackData) (expectedNonce : Option String)
    (verifySig : String → String → String → SigOutcome)
    (receivedNonce receivedUnsecure receivedDomainAndPath : String)
    (parsedExpectedUrl : URLRecord) : Except JSError DigiIDVerificationResult :=
  let expectedDomainAndPath := parsedExpectedUrl.host ++ parsedExpectedUrl.pathname
  if receivedDomainAndPath ≠ expectedDomainAndPath then
    .error (.digiid (callbackMismatchMsg receivedDomainAndPath expectedDomainAndPath))
  else if receivedUnsecure = "1" ∧ parsedExpectedUrl.protocol ≠ "http:" then
    .error (.digiid schemeU1Msg)
  else if receivedUnsecure = "0" ∧ parsedExpectedUrl.protocol ≠ "https:" then
    .error (.digiid schemeU0Msg)
  else nonceStage cd expectedNonce receivedNonce verifySig

/-- src/digiid.ts `verifyDigiIDCallback`.  `verifySig` is the injected
signature-verification capability (`_internalVerifySignature` in the
source), invoked with the original uri, the address and the signature. -/
def verifyDigiIDCallback (callbackData : DigiIDCallbackData)
    (verifyOptions : DigiIDVerifyOptions)
    (verifySig : String → String → String → SigOutcome) :
    Except JSError DigiIDVerificationResult :=
  if callbackData.address = "" ∨ callbackData.uri = "" ∨ callbackData.signature = "" then
    .error (.digiid missingDataMsg)
  else
    match parseURL (digiidToParsable callbackData.uri) with
    | none => .error (.digiid invalidCallbackUriMsg)
    | some parsedReceivedUri =>
      match searchParamsGet parsedReceivedUri.search "x",
            searchParamsGet parsedReceivedUri.search "u" with
      | some receivedNonce, some receivedUnsecure =>
        let parsedExpected :=
          match verifyOptions.expectedCallbackUrl with
          | .str s => parseURL s
          | .url u => some u
        match parsedExpected with
        | none => .error (.digiid invalidExpectedUrlMsg)
        | some parsedExpectedUrl =>
          expectedStage callbackData verifyOptions.expectedNonce verifySig
            receivedNonce receivedUnsecure
            (parsedReceivedUri.host ++ parsedReceivedUri.pathname) parsedExpectedUrl
      | _, _ => .error (.digiid missingParamsMsg)

/-- A nonce is "safe for inclusion in a URI query" when it contains no
character that the query grammar or percent-decoding reinterprets: no '&'
(pair separator), '=' (key separator), '#' (fragment start), '%' or '+'
(percent-decoding). -/
def querySafe (s : String) : Prop :=
  ∀ c ∈ s.data, c ≠ '&' ∧ c ≠ '=' ∧ c ≠ '#' ∧ c ≠ '%' ∧ c ≠ '+'

example : parseURL "https://example.com/callback" =
    some ⟨"https:", "example.com", "/callback", ""⟩ := by decide

example : parseURL "https://example.com" = some ⟨"https:", "example.com", "/", ""⟩ := by
  decide

example : parseURL "invalid-url" = none := by decide

example : parseURL "http://localhost:3000/login" =
    some ⟨"http:", "localhost:3000", "/login", ""⟩ := by decide

example : parseURL "http://example.com:80/x" = some ⟨"http:", "example.com", "/x", ""⟩ := by
  decide

example : searchParamsGet "x=abc&u=0" "x" = some "abc" := by decide

example : searchParamsGet "x=abc&u=0" "u" = some "0" := by decide

example : searchParamsGet "u=0" "x" = none := by decide

example :
    generateDigiIDUri ⟨"https://example.com/callback", none, false⟩
      (fun n => List.replicate n 97) =
    .ok "digiid://example.com/callback?x=61616161616161616161616161616161&u=0" := by
  rfl

/-- The nonce check treats an empty-string `expectedNonce` exactly like an
absent one, because the source guards it with the falsy test
`if (expectedNonce && ...)`. -/
lemma nonceStage_empty_eq_none (cd : DigiIDCallbackData) (rn : String)
    (cap : String → String → String → SigOutcome) :
    nonceStage cd (some "") rn cap = nonceStage cd none rn cap := by
  simp [nonceStage]

/-- `expectedStage` only depends on `expectedNonce` through `nonceStage`, and
the nonce check treats an empty expected nonce like an absent one. -/
lemma expectedStage_empty_eq_none (cd : DigiIDCallbackData)
    (cap : String → String → String → SigOutcome) (rn ru rdp : String)
    (peu : URLRecord) :
    expectedStage cd (some "") cap rn ru rdp peu =
      expectedStage cd none cap rn ru rdp peu := by
  simp only [expectedStage, nonceStage_empty_eq_none]

/-- Claim C10: for every callback payload, calling `verifyDigiIDCallback`
with `expectedNonce` equal to the empty string behaves exactly as if
`expectedNonce` were omitted — the nonce-equality check is skipped (the
source's `if (expectedNonce && ...)` is falsy for the empty string), so
`NonceMismatch` is never raised, whatever nonce the payload's URI carries. -/
theorem claim_C10_empty_expectedNonce_like_omitted (cd : DigiIDCallbackData)
    (ecu : StringOrURL) (cap : String → String → String → SigOutcome) :
    verifyDigiIDCallback cd ⟨ecu, some ""⟩ cap = verifyDigiIDCallback cd ⟨ecu, none⟩ cap := by
  unfold verifyDigiIDCallback
  split
  · rfl
  · cases hp : parseURL (digiidToParsable cd.uri) with
    | none => rfl
    | some pru =>
      cases hx : searchParamsGet pru.search "x" <;>
        cases hu : searchParamsGet pru.search "u" <;>
        rfl

/-- Claim C5: with a nonce source yielding 16 bytes all equal to 0x61,
`generateDigiIDUri` on callback URL "https://example.com/callback" returns
exactly the URI from the spec's scenario (the default nonce is the
lowercase-hex encoding of `randomBytes(16)`). -/
theorem claim_C5_fixed_entropy_scenario :
    generateDigiIDUri ⟨"https://example.com/callback", none, false⟩
      (fun n => List.replicate n 97) =
    .ok "digiid://example.com/callback?x=61616161616161616161616161616161&u=0" := rfl

/-- Counterexample to claim C2 as stated: for the accepted endpoint
"https://example.com", which has no path component and no trailing slash,
the built URI's authority-and-path is "example.com/" — the URL parser
normalises an empty path to "/", so the output gains a trailing slash that
was absent in the input. -/
theorem claim_C2_counterexample :
    generateDigiIDUri ⟨"https://example.com", some "n", false⟩ (fun _ => []) =
      .ok "digiid://example.com/?x=n&u=0" ∧
    (parseURL "https://example.com").map URLRecord.pathname = some "/" := ⟨rfl, rfl⟩

/-- Counterexample to claim C3 as stated: the nonce field is present (the
empty string) yet the emitted URI does not carry it verbatim — the source's
falsy test `options.nonce || generateNonce()` consults the random generator
instead. -/
theorem claim_C3_counterexample :
    generateDigiIDUri ⟨"https://example.com/callback", some "", false⟩
      (fun n => List.replicate n 97) =
      .ok "digiid://example.com/callback?x=61616161616161616161616161616161&u=0" ∧
    "digiid://example.com/callback?x=61616161616161616161616161616161&u=0" ≠
      "digiid://example.com/callback?x=&u=0" := ⟨rfl, by decide⟩

/-- Counterexample to claim C6 as stated: the endpoint
"https://example.com:80/cb" is accepted by the builder and the nonce "n" is
query-safe, yet verifying the built URI against the same endpoint with a
signature capability returning true rejects with an endpoint mismatch: the
challenge URI embeds host "example.com:80", but re-parsing it under the
substituted http scheme strips the then-default port 80, while the expected
https endpoint keeps it. -/
theorem claim_C6_counterexample :
    generateDigiIDUri ⟨"https://example.com:80/cb", some "n", false⟩ (fun _ => []) =
      .ok "digiid://example.com:80/cb?x=n&u=0" ∧
    verifyDigiIDCallback ⟨"addr", "digiid://example.com:80/cb?x=n&u=0", "sig"⟩
      ⟨.str "https://example.com:80/cb", some "n"⟩ (fun _ _ _ => .ok true) =
      .error (.digiid (callbackMismatchMsg "example.com/cb" "example.com:80/cb")) :=
  ⟨rfl, rfl⟩

/-- Appending on the right does not change the data list's head. -/
lemma data_head_append (s t : String) (c : Char) (h : s.data.head? = some c) :
    (s ++ t).data.head? = some c := by
  cases s with
  | mk d =>
    cases t with
    | mk e =>
      show (d ++ e).head? = some c
      cases d with
      | nil => exact absurd h (by simp)
      | cons a l => simpa using h

/-- The nonce-mismatch diagnostic always begins with the letter N. -/
lemma nonceMismatchMsg_head (r x : String) :
    (nonceMismatchMsg r x).data.head? = some 'N' := by
  unfold nonceMismatchMsg
  exact data_head_append _ _ _ (data_head_append _ _ _ (data_head_append _ _ _
    (data_head_append _ _ _ rfl)))

/-- A message whose first character is not N is not a nonce-mismatch
diagnostic. -/
lemma msg_ne_nonceMismatch (m : String) (hm : m.data.head? ≠ some 'N')
    (r x : String) : m ≠ nonceMismatchMsg r x := by
  intro e
  exact hm (by rw [e, nonceMismatchMsg_head])

/-- When every pipeline stage before the endpoint comparison succeeds,
`verifyDigiIDCallback` reduces to `expectedStage`. -/
lemma verify_reduces (cd : DigiIDCallbackData) (en : Option String)
    (cap : String → String → String → SigOutcome) (ecu : String)
    (pru er : URLRecord) (rn ru : String)
    (ha : cd.address ≠ "") (hs : cd.signature ≠ "")
    (hp : parseURL (digiidToParsable cd.uri) = some pru)
    (hx : searchParamsGet pru.search "x" = some rn)
    (hu : searchParamsGet pru.search "u" = some ru)
    (he : parseURL ecu = some er) :
    verifyDigiIDCallback cd ⟨.str ecu, en⟩ cap =
      expectedStage cd en cap rn ru (pru.host ++ pru.pathname) er := by
  have hu0 : cd.uri ≠ "" := by
    intro h
    rw [h] at hp
    exact Option.noConfusion hp
  unfold verifyDigiIDCallback
  rw [if_neg (by simp [ha, hu0, hs])]
  rw [hp]
  dsimp only
  rw [hx, hu]
  dsimp only
  rw [he]

/-- A successful parse forces a non-empty input URL. -/
lemma parseURL_ne_empty {s : String} {r : URLRecord} (hp : parseURL s = some r) :
    s ≠ "" := by
  intro h
  rw [h] at hp
  exact Option.noConfusion hp

/-- Claim C4: `generateDigiIDUri` enforces scheme/flag consistency.  With the
unsecure flag set the scheme must be "http:" (else the dedicated
`SchemeMismatch` message), with it unset the scheme must be "https:" (same
error kind, distinct message); no other scheme is accepted in either branch,
and on success the emitted URI ends in "&u=1" when unsecure and "&u=0"
otherwise. -/
theorem claim_C4_scheme_flag_consistency (opts : DigiIDUriOptions)
    (gen : Nat → List Nat) (r : URLRecord) (n : String)
    (hp : parseURL opts.callbackUrl = some r)
    (hn : opts.nonce = some n) (hne : n ≠ "") :
    generateDigiIDUri opts gen =
      if opts.unsecure ∧ r.protocol ≠ "http:" then .error (.digiid unsecureHttpMsg)
      else if ¬opts.unsecure ∧ r.protocol ≠ "https:" then
        .error (.digiid httpsRequiredMsg)
      else
        .ok ("digiid://" ++ (r.host ++ r.pathname) ++ "?x=" ++ n ++ "&u=" ++
          (if opts.unsecure then "1" else "0")) := by
  unfold generateDigiIDUri
  rw [if_neg (parseURL_ne_empty hp), hp]
  dsimp only
  rw [hn]
  dsimp only
  rw [if_neg hne]

/-- Witness for C4: a valid https endpoint with the flag unset yields the
secure branch and a URI ending in "&u=0". -/
theorem claim_C4_witness :
    generateDigiIDUri ⟨"https://example.com/cb", some "n", false⟩ (fun _ => []) =
      .ok "digiid://example.com/cb?x=n&u=0" := by
  have h := claim_C4_scheme_flag_consistency ⟨"https://example.com/cb", some "n", false⟩
    (fun _ => []) ⟨"https:", "example.com", "/cb", ""⟩ "n" rfl rfl (by decide)
  simpa using h

/-- The hex encoding of a byte list has two characters per byte. -/
lemma bytesToHex_length (bs : List Nat) : (bytesToHex bs).length = 2 * bs.length := by
  show (bs.foldr (fun b acc => byteToHex b ++ acc) []).length = 2 * bs.length
  induction bs with
  | nil => rfl
  | cons b t ih =>
    simp only [List.foldr_cons, List.length_append, List.length_cons, ih]
    simp [byteToHex]
    ring

/-- Every character of a hex encoding is a lowercase hex digit. -/
lemma bytesToHex_mem (bs : List Nat) :
    ∀ c ∈ (bytesToHex bs).data, c ∈ ("0123456789abcdef").data := by
  have hdigit : ∀ n, n < 16 → hexDigitChar n ∈ ("0123456789abcdef").data := by decide
  show ∀ c ∈ bs.foldr (fun b acc => byteToHex b ++ acc) [], _
  induction bs with
  | nil => intro c hc; exact absurd hc (by simp)
  | cons b t ih =>
    intro c hc
    simp only [List.foldr_cons, List.mem_append] at hc
    rcases hc with hc | hc
    · simp only [byteToHex, List.mem_cons] at hc
      rcases hc with rfl | hc
      · exact hdigit _ (by omega)
      · rcases hc with rfl | hc
        · exact hdigit _ (by omega)
        · exact absurd hc (by simp)
    · exact ih c hc

/-- Claim C3 (amended): a caller-supplied nonce that is present and
non-empty is used verbatim as the x parameter; when the nonce is absent the
entropy capability is consulted and the nonce is the lowercase-hex encoding
of `randomBytes(16)` — 32 characters drawn from 0-9a-f for a 16-byte
source.  (The original claim said "present"; the source's falsy test sends
a present-but-empty nonce to the generator, see the counterexample.) -/
theorem claim_C3_nonce_resolution (opts : DigiIDUriOptions)
    (gen : Nat → List Nat) (r : URLRecord) (n : String)
    (hp : parseURL opts.callbackUrl = some r)
    (hproto : r.protocol = "https:") (hunsec : opts.unsecure = false)
    (hlen : (gen 16).length = 16) :
    (opts.nonce = some n → n ≠ "" →
      generateDigiIDUri opts gen =
        .ok ("digiid://" ++ (r.host ++ r.pathname) ++ "?x=" ++ n ++ "&u=0")) ∧
    (opts.nonce = none →
      generateDigiIDUri opts gen =
        .ok ("digiid://" ++ (r.host ++ r.pathname) ++ "?x=" ++ bytesToHex (gen 16) ++
          "&u=0")) ∧
    (bytesToHex (gen 16)).length = 32 ∧
    (∀ c ∈ (bytesToHex (gen 16)).data, c ∈ ("0123456789abcdef").data) := by
  refine ⟨?_, ?_, ?_, bytesToHex_mem _⟩
  · intro hn hne
    unfold generateDigiIDUri
    rw [if_neg (parseURL_ne_empty hp), hp]
    dsimp only
    rw [hn]
    dsimp only
    rw [if_neg hne, if_neg (by simp [hunsec]), if_neg (by simp [hunsec, hproto]),
      hunsec]
    simp only [Bool.false_eq_true, if_false, Except.ok.injEq]
    apply String.ext
    simp only [String.data_append, List.append_assoc]
    rfl
  · intro hn
    unfold generateDigiIDUri
    rw [if_neg (parseURL_ne_empty hp), hp]
    dsimp only
    rw [hn]
    dsimp only
    rw [if_neg (by simp [hunsec]), if_neg (by simp [hunsec, hproto]), hunsec]
    simp only [Bool.false_eq_true, if_false, Except.ok.injEq, generateNonce]
    apply String.ext
    simp only [String.data_append, List.append_assoc]
    rfl
  · rw [bytesToHex_length, hlen]

/-- Witness for C3: a concrete supplied nonce is used verbatim, and with no
nonce the generator's 16 bytes appear hex-encoded. -/
theorem claim_C3_witness :
    generateDigiIDUri ⟨"https://example.com/cb", some "mynonce", false⟩
      (fun n => List.replicate n 0) = .ok "digiid://example.com/cb?x=mynonce&u=0" ∧
    generateDigiIDUri ⟨"https://example.com/cb", none, false⟩
      (fun n => List.replicate n 0) =
      .ok "digiid://example.com/cb?x=00000000000000000000000000000000&u=0" := by
  have h := claim_C3_nonce_resolution ⟨"https://example.com/cb", some "mynonce", false⟩
    (fun n => List.replicate n 0) ⟨"https:", "example.com", "/cb", ""⟩ "mynonce"
    rfl rfl rfl (by decide)
  have h2 := claim_C3_nonce_resolution ⟨"https://example.com/cb", none, false⟩
    (fun n => List.replicate n 0) ⟨"https:", "example.com", "/cb", ""⟩ "unused"
    rfl rfl rfl (by decide)
  exact ⟨by simpa using h.1 rfl (by decide), by simpa using h2.2.1 rfl⟩

/-- Claim C1: once the received challenge URI parses, carries x and u, and
matches the expected endpoint's authority-and-path, the transport-flag check
applies exactly the two branches of the source: u = "1" demands the expected
scheme "http:", u = "0" demands "https:", a mismatch yields the respective
`SchemeMismatch` diagnostic, and any other value of u — never produced by
the builder — falls through both branches, so with a signature capability
returning true the verification succeeds. -/
theorem claim_C1_transport_flag_branches (a uriStr s ecu rn ru : String)
    (pru er : URLRecord)
    (ha : a ≠ "") (hs : s ≠ "")
    (hp : parseURL (digiidToParsable uriStr) = some pru)
    (hx : searchParamsGet pru.search "x" = some rn)
    (hu : searchParamsGet pru.search "u" = some ru)
    (he : parseURL ecu = some er)
    (hm : pru.host ++ pru.pathname = er.host ++ er.pathname) :
    verifyDigiIDCallback ⟨a, uriStr, s⟩ ⟨.str ecu, none⟩ (fun _ _ _ => .ok true) =
      if ru = "1" ∧ er.protocol ≠ "http:" then .error (.digiid schemeU1Msg)
      else if ru = "0" ∧ er.protocol ≠ "https:" then .error (.digiid schemeU0Msg)
      else .ok ⟨true, a, rn⟩ := by
  rw [verify_reduces ⟨a, uriStr, s⟩ none _ ecu pru er rn ru ha hs hp hx hu he]
  unfold expectedStage
  rw [if_neg (by simp [hm])]
  split <;> rfl

/-- Witness for C1: an exotic transport flag u=2 is checked against both
branches, matches neither mismatch condition, and verification succeeds. -/
theorem claim_C1_witness :
    verifyDigiIDCallback ⟨"A", "digiid://example.com/cb?x=n&u=2", "S"⟩
      ⟨.str "https://example.com/cb", none⟩ (fun _ _ _ => .ok true) =
      .ok ⟨true, "A", "n"⟩ := by
  have h := claim_C1_transport_flag_branches "A" "digiid://example.com/cb?x=n&u=2" "S"
    "https://example.com/cb" "n" "2" ⟨"http:", "example.com", "/cb", "x=n&u=2"⟩
    ⟨"https:", "example.com", "/cb", ""⟩ (by decide) (by decide) (by decide)
    (by decide) (by decide) (by decide) (by decide)
  simpa using h

/-- Claim C9: the authority-and-path extracted from the payload's challenge
URI is compared with the expected endpoint's authority-and-path by exact
string equality (case-sensitive, nothing further normalised at the
comparison); any difference raises the endpoint-mismatch diagnostic
carrying both the received and the expected value. -/
theorem claim_C9_endpoint_mismatch (cd : DigiIDCallbackData) (en : Option String)
    (cap : String → String → String → SigOutcome) (ecu rn ru : String)
    (pru er : URLRecord)
    (ha : cd.address ≠ "") (hs : cd.signature ≠ "")
    (hp : parseURL (digiidToParsable cd.uri) = some pru)
    (hx : searchParamsGet pru.search "x" = some rn)
    (hu : searchParamsGet pru.search "u" = some ru)
    (he : parseURL ecu = some er)
    (hne : pru.host ++ pru.pathname ≠ er.host ++ er.pathname) :
    verifyDigiIDCallback cd ⟨.str ecu, en⟩ cap =
      .error (.digiid (callbackMismatchMsg (pru.host ++ pru.pathname)
        (er.host ++ er.pathname))) := by
  rw [verify_reduces cd en cap ecu pru er rn ru ha hs hp hx hu he]
  unfold expectedStage
  rw [if_pos hne]

/-- Witness for C9: the spec's scenario — a challenge built for
example.com/callback verified against https://different.com/callback is
rejected with a diagnostic citing both values. -/
theorem claim_C9_witness :
    verifyDigiIDCallback ⟨"A", "digiid://example.com/callback?x=N&u=0", "S"⟩
      ⟨.str "https://different.com/callback", none⟩ (fun _ _ _ => .ok true) =
      .error (.digiid (callbackMismatchMsg "example.com/callback"
        "different.com/callback")) := by
  have h := claim_C9_endpoint_mismatch ⟨"A", "digiid://example.com/callback?x=N&u=0", "S"⟩
    none (fun _ _ _ => .ok true) "https://different.com/callback" "N" "0"
    ⟨"http:", "example.com", "/callback", "x=N&u=0"⟩
    ⟨"https:", "different.com", "/callback", ""⟩ (by decide) (by decide) (by decide)
    (by decide) (by decide) (by decide) (by decide)
  simpa using h

/-- Claim C8: at the delegation step the capability is invoked with the
payload's original uri, address and signature; a false return raises
"Invalid signature.", a thrown `DigiIDError` propagates unchanged, any
other exception is wrapped in the `VerificationFailure` message retaining
the original text, and a true return succeeds. -/
theorem claim_C8_signature_delegation (cd : DigiIDCallbackData)
    (cap : String → String → String → SigOutcome) (ecu rn ru : String)
    (pru er : URLRecord)
    (ha : cd.address ≠ "") (hs : cd.signature ≠ "")
    (hp : parseURL (digiidToParsable cd.uri) = some pru)
    (hx : searchParamsGet pru.search "x" = some rn)
    (hu : searchParamsGet pru.search "u" = some ru)
    (he : parseURL ecu = some er)
    (hm : pru.host ++ pru.pathname = er.host ++ er.pathname)
    (hs1 : ¬(ru = "1" ∧ er.protocol ≠ "http:"))
    (hs0 : ¬(ru = "0" ∧ er.protocol ≠ "https:")) :
    (cap cd.uri cd.address cd.signature = .ok true →
      verifyDigiIDCallback cd ⟨.str ecu, none⟩ cap = .ok ⟨true, cd.address, rn⟩) ∧
    (cap cd.uri cd.address cd.signature = .ok false →
      verifyDigiIDCallback cd ⟨.str ecu, none⟩ cap =
        .error (.digiid invalidSignatureMsg)) ∧
    (∀ m, cap cd.uri cd.address cd.signature = .threw (.digiid m) →
      verifyDigiIDCallback cd ⟨.str ecu, none⟩ cap = .error (.digiid m)) ∧
    (∀ m, cap cd.uri cd.address cd.signature = .threw (.other m) →
      verifyDigiIDCallback cd ⟨.str ecu, none⟩ cap =
        .error (.digiid (unexpectedSigErrorMsg m))) := by
  have hred : verifyDigiIDCallback cd ⟨.str ecu, none⟩ cap =
      signatureStage cd rn cap := by
    rw [verify_reduces cd none cap ecu pru er rn ru ha hs hp hx hu he]
    unfold expectedStage
    rw [if_neg (by simp [hm]), if_neg hs1, if_neg hs0]
    rfl
  refine ⟨?_, ?_, ?_, ?_⟩
  · intro hc
    rw [hred]
    unfold signatureStage
    rw [hc]
  · intro hc
    rw [hred]
    unfold signatureStage
    rw [hc]
  · intro m hc
    rw [hred]
    unfold signatureStage
    rw [hc]
  · intro m hc
    rw [hred]
    unfold signatureStage
    rw [hc]

/-- Witness for C8: the spec's two capability-exception scenarios plus the
false-return case at a concrete payload. -/
theorem claim_C8_witness :
    verifyDigiIDCallback ⟨"A", "digiid://example.com/cb?x=n&u=0", "S"⟩
      ⟨.str "https://example.com/cb", none⟩ (fun _ _ _ => .ok false) =
      .error (.digiid invalidSignatureMsg) ∧
    verifyDigiIDCallback ⟨"A", "digiid://example.com/cb?x=n&u=0", "S"⟩
      ⟨.str "https://example.com/cb", none⟩
      (fun _ _ _ => .threw (.digiid "Signature verification failed: Malformed signature")) =
      .error (.digiid "Signature verification failed: Malformed signature") ∧
    verifyDigiIDCallback ⟨"A", "digiid://example.com/cb?x=n&u=0", "S"⟩
      ⟨.str "https://example.com/cb", none⟩
      (fun _ _ _ => .threw (.other "Unexpected network issue")) =
      .error (.digiid (unexpectedSigErrorMsg "Unexpected network issue")) := by
  refine ⟨?_, ?_, ?_⟩
  · exact (claim_C8_signature_delegation ⟨"A", "digiid://example.com/cb?x=n&u=0", "S"⟩
      (fun _ _ _ => .ok false) "https://example.com/cb" "n" "0"
      ⟨"http:", "example.com", "/cb", "x=n&u=0"⟩ ⟨"https:", "example.com", "/cb", ""⟩
      (by decide) (by decide) (by decide) (by decide) (by decide) (by decide)
      (by decide) (by decide) (by decide)).2.1 rfl
  · exact (claim_C8_signature_delegation ⟨"A", "digiid://example.com/cb?x=n&u=0", "S"⟩
      (fun _ _ _ => .threw (.digiid "Signature verification failed: Malformed signature"))
      "https://example.com/cb" "n" "0"
      ⟨"http:", "example.com", "/cb", "x=n&u=0"⟩ ⟨"https:", "example.com", "/cb", ""⟩
      (by decide) (by decide) (by decide) (by decide) (by decide) (by decide)
      (by decide) (by decide) (by decide)).2.2.1 _ rfl
  · exact (claim_C8_signature_delegation ⟨"A", "digiid://example.com/cb?x=n&u=0", "S"⟩
      (fun _ _ _ => .threw (.other "Unexpected network issue"))
      "https://example.com/cb" "n" "0"
      ⟨"http:", "example.com", "/cb", "x=n&u=0"⟩ ⟨"https:", "example.com", "/cb", ""⟩
      (by decide) (by decide) (by decide) (by decide) (by decide) (by decide)
      (by decide) (by decide) (by decide)).2.2.2 _ rfl

/-- The endpoint-mismatch diagnostic always begins with the letter C. -/
lemma callbackMismatchMsg_head (a b : String) :
    (callbackMismatchMsg a b).data.head? = some 'C' := by
  unfold callbackMismatchMsg
  exact data_head_append _ _ _ (data_head_append _ _ _ (data_head_append _ _ _ rfl))

/-- With no expected nonce and a capability that only returns booleans, the
stage after the endpoint match can never produce a nonce-mismatch
diagnostic. -/
lemma expectedStage_none_ne_nonce (cd : DigiIDCallbackData)
    (f : String → String → String → Bool) (rn ru rdp : String) (peu : URLRecord)
    (r x : String) :
    expectedStage cd none (fun u a s => .ok (f u a s)) rn ru rdp peu ≠
      .error (.digiid (nonceMismatchMsg r x)) := by
  intro h
  simp only [expectedStage] at h
  by_cases h1 : rdp ≠ peu.host ++ peu.pathname
  · rw [if_pos h1] at h
    simp only [Except.error.injEq, JSError.digiid.injEq] at h
    simpa [callbackMismatchMsg_head, nonceMismatchMsg_head] using
      congrArg (fun s => s.data.head?) h
  · rw [if_neg h1] at h
    by_cases h2 : ru = "1" ∧ peu.protocol ≠ "http:"
    · rw [if_pos h2] at h
      simp only [Except.error.injEq, JSError.digiid.injEq] at h
      exact msg_ne_nonceMismatch _ (by decide) r x h
    · rw [if_neg h2] at h
      by_cases h3 : ru = "0" ∧ peu.protocol ≠ "https:"
      · rw [if_pos h3] at h
        simp only [Except.error.injEq, JSError.digiid.injEq] at h
        exact msg_ne_nonceMismatch _ (by decide) r x h
      · rw [if_neg h3] at h
        simp only [nonceStage, signatureStage] at h
        cases hb : f cd.uri cd.address cd.signature with
        | true =>
          rw [hb] at h
          exact Except.noConfusion h
        | false =>
          rw [hb] at h
          simp only [Except.error.injEq, JSError.digiid.injEq] at h
          exact msg_ne_nonceMismatch _ (by decide) r x h

/-- An error whose message does not start with N differs from every
nonce-mismatch error. -/
lemma errMsg_ne_nonce (m : String) (hm : m.data.head? ≠ some 'N') (r x : String) :
    (Except.error (JSError.digiid m) : Except JSError DigiIDVerificationResult) ≠
      .error (.digiid (nonceMismatchMsg r x)) := by
  intro e
  injection e with e1
  injection e1 with e2
  exact msg_ne_nonceMismatch m hm r x e2

/-- Claim C7: the nonce check is optional and exact.  First conjunct: with
`expectedNonce` omitted and any capability that returns a boolean,
`verifyDigiIDCallback` never raises a nonce-mismatch diagnostic, whatever
nonce the payload's URI carries.  Second conjunct: with a supplied
(non-empty, i.e. truthy) `expectedNonce` the check is exact string equality
against the received nonce, and a mismatch raises exactly the
nonce-mismatch diagnostic. -/
theorem claim_C7_optional_nonce_check :
    (∀ (cd : DigiIDCallbackData) (ecu : StringOrURL)
      (f : String → String → String → Bool) (r x : String),
      verifyDigiIDCallback cd ⟨ecu, none⟩ (fun u a s => .ok (f u a s)) ≠
        .error (.digiid (nonceMismatchMsg r x))) ∧
    (∀ (cd : DigiIDCallbackData) (cap : String → String → String → SigOutcome)
      (ecu en rn ru : String) (pru er : URLRecord),
      cd.address ≠ "" → cd.signature ≠ "" →
      parseURL (digiidToParsable cd.uri) = some pru →
      searchParamsGet pru.search "x" = some rn →
      searchParamsGet pru.search "u" = some ru →
      parseURL ecu = some er →
      pru.host ++ pru.pathname = er.host ++ er.pathname →
      ¬(ru = "1" ∧ er.protocol ≠ "http:") →
      ¬(ru = "0" ∧ er.protocol ≠ "https:") →
      en ≠ "" → rn ≠ en →
      verifyDigiIDCallback cd ⟨.str ecu, some en⟩ cap =
        .error (.digiid (nonceMismatchMsg rn en))) := by
  constructor
  · intro cd ecu f r x
    unfold verifyDigiIDCallback
    split
    · exact errMsg_ne_nonce missingDataMsg (by decide) r x
    · split
      · exact errMsg_ne_nonce invalidCallbackUriMsg (by decide) r x
      · split
        · split
          · rename_i s heq
            cases hpe : parseURL s with
            | none => exact errMsg_ne_nonce invalidExpectedUrlMsg (by decide) r x
            | some peu => apply expectedStage_none_ne_nonce
          · apply expectedStage_none_ne_nonce
        · exact errMsg_ne_nonce missingParamsMsg (by decide) r x
  · intro cd cap ecu en rn ru pru er ha hs hp hx hu he hm hs1 hs0 hen hrn
    rw [verify_reduces cd (some en) cap ecu pru er rn ru ha hs hp hx hu he]
    simp only [expectedStage]
    rw [if_neg (by simp [hm]), if_neg hs1, if_neg hs0]
    simp only [nonceStage]
    rw [if_pos ⟨hen, hrn⟩]

/-- Witness for C7: a concrete mismatching expected nonce raises exactly
the nonce-mismatch diagnostic, and the same payload with `expectedNonce`
omitted does not. -/
theorem claim_C7_witness :
    verifyDigiIDCallback ⟨"A", "digiid://example.com/cb?x=n&u=0", "S"⟩
      ⟨.str "https://example.com/cb", some "zz"⟩ (fun _ _ _ => .ok true) =
      .error (.digiid (nonceMismatchMsg "n" "zz")) ∧
    verifyDigiIDCallback ⟨"A", "digiid://example.com/cb?x=n&u=0", "S"⟩
      ⟨.str "https://example.com/cb", none⟩ (fun _ _ _ => .ok true) ≠
      .error (.digiid (nonceMismatchMsg "n" "zz")) := by
  constructor
  · exact claim_C7_optional_nonce_check.2 ⟨"A", "digiid://example.com/cb?x=n&u=0", "S"⟩
      (fun _ _ _ => .ok true) "https://example.com/cb" "zz" "n" "0"
      ⟨"http:", "example.com", "/cb", "x=n&u=0"⟩ ⟨"https:", "example.com", "/cb", ""⟩
      (by decide) (by decide) (by decide) (by decide) (by decide) (by decide)
      (by decide) (by decide) (by decide) (by decide) (by decide)
  · exact claim_C7_optional_nonce_check.1 ⟨"A", "digiid://example.com/cb?x=n&u=0", "S"⟩
      (.str "https://example.com/cb") (fun _ _ _ => true) "n" "zz"
/-- `takeWhile` passes over a prefix whose elements all satisfy the
predicate. -/
lemma takeWhile_append_all {p : Char → Bool} {l₁ l₂ : List Char}
    (h : ∀ c ∈ l₁, p c = true) : (l₁ ++ l₂).takeWhile p = l₁ ++ l₂.takeWhile p := by
  induction l₁ with
  | nil => simp
  | cons a t ih =>
    rw [List.cons_append, List.takeWhile_cons_of_pos (h a (by simp)), List.cons_append,
      ih (fun c hc => h c (by simp [hc]))]

/-- `dropWhile` consumes a prefix whose elements all satisfy the predicate. -/
lemma dropWhile_append_all {p : Char → Bool} {l₁ l₂ : List Char}
    (h : ∀ c ∈ l₁, p c = true) : (l₁ ++ l₂).dropWhile p = l₂.dropWhile p := by
  induction l₁ with
  | nil => simp
  | cons a t ih =>
    rw [List.cons_append, List.dropWhile_cons_of_pos (h a (by simp)),
      ih (fun c hc => h c (by simp [hc]))]

/-- `takeWhile` keeps a list whose elements all satisfy the predicate. -/
lemma takeWhile_eq_self_all {p : Char → Bool} {l : List Char}
    (h : ∀ c ∈ l, p c = true) : l.takeWhile p = l := by
  induction l with
  | nil => rfl
  | cons a t ih =>
    rw [List.takeWhile_cons_of_pos (h a (by simp)), ih (fun c hc => h c (by simp [hc]))]

/-- `dropWhile` leaves a list untouched when its head fails the predicate
(or the list is empty). -/
lemma dropWhile_eq_self_head {p : Char → Bool} {l : List Char}
    (h : ∀ c, l.head? = some c → p c = false) : l.dropWhile p = l := by
  cases l with
  | nil => rfl
  | cons a t => exact List.dropWhile_cons_of_neg (by simp [h a rfl])

/-- `takeWhile` stops at a failing head (or an empty list). -/
lemma takeWhile_eq_nil_head {p : Char → Bool} {l : List Char}
    (h : ∀ c, l.head? = some c → p c = false) : l.takeWhile p = [] := by
  cases l with
  | nil => rfl
  | cons a t => exact List.takeWhile_cons_of_neg (by simp [h a rfl])

/-- Elements of a `takeWhile` result satisfy the predicate. -/
lemma mem_takeWhile_sat {p : Char → Bool} {l : List Char} {c : Char}
    (h : c ∈ l.takeWhile p) : p c = true := by
  induction l with
  | nil => exact absurd h (by simp)
  | cons a t ih =>
    rw [List.takeWhile_cons] at h
    by_cases hp : p a
    · rw [if_pos hp] at h
      rcases List.mem_cons.mp h with rfl | h
      · exact hp
      · exact ih h
    · rw [if_neg hp] at h
      exact absurd h (by simp)

/-- Elements of a `takeWhile` result come from the original list. -/
lemma mem_takeWhile_mem {p : Char → Bool} {l : List Char} {c : Char}
    (h : c ∈ l.takeWhile p) : c ∈ l := by
  induction l with
  | nil => exact absurd h (by simp)
  | cons a t ih =>
    rw [List.takeWhile_cons] at h
    by_cases hp : p a
    · rw [if_pos hp] at h
      rcases List.mem_cons.mp h with rfl | h
      · simp
      · simp [ih h]
    · rw [if_neg hp] at h
      exact absurd h (by simp)

/-- Elements of a `dropWhile` result come from the original list. -/
lemma mem_dropWhile_mem {p : Char → Bool} {l : List Char} {c : Char}
    (h : c ∈ l.dropWhile p) : c ∈ l := by
  induction l with
  | nil => exact absurd h (by simp)
  | cons a t ih =>
    rw [List.dropWhile_cons] at h
    by_cases hp : p a
    · rw [if_pos hp] at h
      simp [ih h]
    · rw [if_neg hp] at h
      exact h

/-- The head of a `dropWhile` result fails the predicate. -/
lemma dropWhile_head_neg {p : Char → Bool} {l : List Char} {c : Char} {t : List Char}
    (h : l.dropWhile p = c :: t) : p c = false := by
  induction l with
  | nil => exact absurd h (by simp)
  | cons a t' ih =>
    rw [List.dropWhile_cons] at h
    by_cases hp : p a
    · rw [if_pos hp] at h
      exact ih h
    · rw [if_neg hp] at h
      injection h with h1 h2
      subst h1
      exact Bool.eq_false_iff.mpr hp

/-- Parse of a reassembled special-scheme URL string: scheme, non-empty
authority free of delimiters and of '@' and unchanged by default-port
stripping, then a tail that is empty or starts with '/', '?' or '#'.  The
parse splits it back into exactly these components. -/
lemma parseURLChars_assembled (c0 : Char) (restS A T : List Char)
    (hAlpha : c0.isAlpha = true)
    (hSok : restS.all schemeCharOk = true)
    (hScolon : ∀ c ∈ c0 :: restS, (c == ':') = false)
    (hA : A ≠ []) (hAc : ∀ c ∈ A, authorityChar c = true)
    (hAat : ∀ c ∈ A, (c == '@') = false)
    (hT : T = [] ∨ ∃ t0 T', T = t0 :: T' ∧ authorityChar t0 = false)
    (hstrip : stripDefaultPort ⟨c0 :: restS⟩ A = A) :
    parseURLChars ((c0 :: restS) ++ ':' :: '/' :: '/' :: (A ++ T)) =
      some ⟨⟨c0 :: restS⟩ ++ ":", ⟨A⟩,
        ⟨if T.takeWhile pathChar = [] then ['/'] else T.takeWhile pathChar⟩,
        ⟨match T.dropWhile pathChar with
          | '?' :: qs => qs.takeWhile (fun c => !(c == '#'))
          | _ => []⟩⟩ := by
  have e1 : ((c0 :: restS) ++ ':' :: '/' :: '/' :: (A ++ T)).takeWhile
      (fun c => !(c == ':')) = c0 :: restS := by
    rw [takeWhile_append_all (fun c hc => by rw [hScolon c hc]; rfl),
      List.takeWhile_cons_of_neg (by decide), List.append_nil]
  have e2 : ((c0 :: restS) ++ ':' :: '/' :: '/' :: (A ++ T)).dropWhile
      (fun c => !(c == ':')) = ':' :: '/' :: '/' :: (A ++ T) := by
    rw [dropWhile_append_all (fun c hc => by rw [hScolon c hc]; rfl),
      List.dropWhile_cons_of_neg (by decide)]
  have hAhead : ∀ c, A.head? = some c → (c == '/') = false := by
    intro c hc
    have hm : c ∈ A := by
      cases A with
      | nil => exact absurd hc (by simp)
      | cons a t =>
        rw [List.head?_cons] at hc
        injection hc with hc
        subst hc
        exact List.mem_cons_self _ _
    have := hAc c hm
    unfold authorityChar at this
    simp only [Bool.not_eq_true', Bool.or_eq_false_iff] at this
    exact this.1.1
  have e3 : ('/' :: '/' :: (A ++ T)).dropWhile (fun c => c == '/') = A ++ T := by
    rw [List.dropWhile_cons_of_pos (by decide), List.dropWhile_cons_of_pos (by decide)]
    exact dropWhile_eq_self_head (by
      intro c hc
      cases A with
      | nil => exact absurd rfl hA
      | cons a t =>
        rw [List.cons_append, List.head?_cons] at hc
        injection hc with hc
        rw [← hc]
        exact hAhead a (by simp))
  have e4 : (A ++ T).takeWhile authorityChar = A := by
    rw [takeWhile_append_all hAc]
    rcases hT with rfl | ⟨t0, T', rfl, ht0⟩
    · simp
    · rw [List.takeWhile_cons_of_neg (by simp [ht0]), List.append_nil]
  have e5 : (A ++ T).dropWhile authorityChar = T := by
    rw [dropWhile_append_all hAc]
    rcases hT with rfl | ⟨t0, T', rfl, ht0⟩
    · rfl
    · rw [List.dropWhile_cons_of_neg (by simp [ht0])]
  have e6 : (A.reverse.takeWhile (fun c => !(c == '@'))).reverse = A := by
    rw [takeWhile_eq_self_all (fun c hc => by
      rw [hAat c (List.mem_reverse.mp hc)]; rfl), List.reverse_reverse]
  simp only [parseURLChars, e1, e2]
  rw [if_neg (by simp [hAlpha])]
  rw [if_neg (by simp [hSok])]
  simp only [e3, e4, e6, hstrip]
  rw [if_neg hA, if_neg hA]
  simp only [e5]

example :
    parseURLChars ("https".data ++ ':' :: '/' :: '/' :: ("example.com".data ++ "/cb?q=1".data)) =
      some ⟨"https:", "example.com", "/cb", "q=1"⟩ := by
  have h := parseURLChars_assembled 'h' "ttps".data "example.com".data "/cb?q=1".data
    (by decide) (by decide) (by decide) (by decide) (by decide) (by decide)
    (Or.inr ⟨'/', "cb?q=1".data, rfl, by decide⟩) (by decide)
  simpa using h

/-- A character different from the three authority delimiters satisfies
`authorityChar`. -/
lemma authorityChar_of_ne {c : Char} (h1 : c ≠ '/') (h2 : c ≠ '?') (h3 : c ≠ '#') :
    authorityChar c = true := by
  simp [authorityChar, h1, h2, h3]

/-- A character different from the two path delimiters satisfies `pathChar`. -/
lemma pathChar_of_ne {c : Char} (h1 : c ≠ '?') (h2 : c ≠ '#') : pathChar c = true := by
  simp [pathChar, h1, h2]

/-- `List.contains` is false for an absent element. -/
lemma contains_eq_false_of_not_mem {l : List Char} {a : Char} (h : a ∉ l) :
    l.contains a = false := by
  show l.elem a = false
  rw [List.elem_eq_mem]
  exact decide_eq_false h

/-- Default-port stripping is the identity on a host without a colon. -/
lemma stripDefaultPort_no_colon (s : String) {A : List Char} (h : ':' ∉ A) :
    stripDefaultPort s A = A := by
  unfold stripDefaultPort
  rw [contains_eq_false_of_not_mem h]
  simp

/-- A list whose optional head is `some c` is a cons with head `c`. -/
lemma head?_some_eq_cons {l : List Char} {c : Char} (h : l.head? = some c) :
    ∃ t, l = c :: t := by
  cases l with
  | nil => exact absurd h (by simp)
  | cons a t =>
    rw [List.head?_cons] at h
    injection h with h
    exact ⟨t, by rw [h]⟩

/-- Claim C2 (amended): for an accepted https endpoint written as
"https://" + host + path + query/fragment tail, the built URI embeds
exactly host + pathname — scheme, query and fragment dropped — and the
pathname is the path verbatim (trailing slash included iff present in the
input) whenever the path is non-empty, while an empty path is normalised by
the URL parser to "/" and therefore contributes a trailing slash (the
correction forced by the counterexample). -/
theorem claim_C2_authority_and_path (H P Q n : String) (gen : Nat → List Nat)
    (hH : H.data ≠ [])
    (hHc : ∀ c ∈ H.data, c ≠ '/' ∧ c ≠ '?' ∧ c ≠ '#' ∧ c ≠ '@' ∧ c ≠ ':')
    (hP : P = "" ∨ (P.data.head? = some '/' ∧ ∀ c ∈ P.data, c ≠ '?' ∧ c ≠ '#'))
    (hQ : Q = "" ∨ Q.data.head? = some '?' ∨ Q.data.head? = some '#')
    (hn : n ≠ "") :
    generateDigiIDUri ⟨"https://" ++ H ++ P ++ Q, some n, false⟩ gen =
      .ok ("digiid://" ++ (H ++ (if P = "" then "/" else P)) ++ "?x=" ++ n ++ "&u=0") := by
  have hdata : ("https://" ++ H ++ P ++ Q).data =
      ('h' :: "ttps".data) ++ ':' :: '/' :: '/' :: (H.data ++ (P.data ++ Q.data)) := by
    simp only [String.data_append, List.append_assoc]
    rfl
  have htake : (P.data ++ Q.data).takeWhile pathChar = P.data := by
    have hqnil : Q.data.takeWhile pathChar = [] := by
      rcases hQ with rfl | hq | hq
      · rfl
      · obtain ⟨t, ht⟩ := head?_some_eq_cons hq
        rw [ht]
        exact List.takeWhile_cons_of_neg (by decide)
      · obtain ⟨t, ht⟩ := head?_some_eq_cons hq
        rw [ht]
        exact List.takeWhile_cons_of_neg (by decide)
    rcases hP with rfl | ⟨hPhead, hPc⟩
    · show ([] ++ Q.data).takeWhile pathChar = []
      rw [List.nil_append, hqnil]
    · rw [takeWhile_append_all (fun c hc => pathChar_of_ne (hPc c hc).1 (hPc c hc).2),
        hqnil, List.append_nil]
  have hT : P.data ++ Q.data = [] ∨
      ∃ t0 T', P.data ++ Q.data = t0 :: T' ∧ authorityChar t0 = false := by
    rcases hP with rfl | ⟨hPhead, hPc⟩
    · rcases hQ with rfl | hq | hq
      · left; rfl
      · obtain ⟨t, ht⟩ := head?_some_eq_cons hq
        right
        exact ⟨'?', t, by rw [show ("".data ++ Q.data) = Q.data from List.nil_append _, ht],
          by decide⟩
      · obtain ⟨t, ht⟩ := head?_some_eq_cons hq
        right
        exact ⟨'#', t, by rw [show ("".data ++ Q.data) = Q.data from List.nil_append _, ht],
          by decide⟩
    · obtain ⟨t, ht⟩ := head?_some_eq_cons hPhead
      right
      exact ⟨'/', t ++ Q.data, by rw [ht]; rfl, by decide⟩
  have hparse : parseURL ("https://" ++ H ++ P ++ Q) =
      some ⟨⟨'h' :: "ttps".data⟩ ++ ":", ⟨H.data⟩,
        ⟨if (P.data ++ Q.data).takeWhile pathChar = [] then ['/']
          else (P.data ++ Q.data).takeWhile pathChar⟩,
        ⟨match (P.data ++ Q.data).dropWhile pathChar with
          | '?' :: qs => qs.takeWhile (fun c => !(c == '#'))
          | _ => []⟩⟩ := by
    rw [parseURL, hdata]
    exact parseURLChars_assembled 'h' "ttps".data H.data (P.data ++ Q.data)
      (by decide) (by decide) (by decide) hH
      (fun c hc => authorityChar_of_ne (hHc c hc).1 (hHc c hc).2.1 (hHc c hc).2.2.1)
      (fun c hc => beq_eq_false_iff_ne.mpr (hHc c hc).2.2.2.1)
      hT
      (stripDefaultPort_no_colon _ (fun hmem => (hHc ':' hmem).2.2.2.2 rfl))
  rw [htake] at hparse
  have hne0 : ("https://" ++ H ++ P ++ Q) ≠ "" := by
    intro h
    have h2 := congrArg String.data h
    rw [hdata] at h2
    simp at h2
  unfold generateDigiIDUri
  rw [if_neg hne0, hparse]
  dsimp only
  rw [if_neg hn]
  rw [if_neg (by simp), if_neg (by
    simp [show ((⟨'h' :: "ttps".data⟩ : String) ++ ":") = "https:" from rfl])]
  by_cases hPe : P = ""
  · subst hPe
    simp only [Except.ok.injEq]
    apply String.ext
    simp only [String.data_append, List.append_assoc]
    rfl
  · have hPd : P.data ≠ [] := fun hd => hPe (String.ext (by rw [hd]))
    rw [if_neg hPd] at hparse ⊢
    rw [if_neg hPe]
    simp only [Except.ok.injEq]
    apply String.ext
    simp only [String.data_append, List.append_assoc]
    rfl

/-- Witness for the amended C2: a path with an explicit trailing slash and a
query keeps the slash and drops the query. -/
theorem claim_C2_witness :
    generateDigiIDUri ⟨"https://example.com/callback/?a=1", some "x", false⟩
      (fun _ => []) = .ok "digiid://example.com/callback/?x=x&u=0" := by
  have h := claim_C2_authority_and_path "example.com" "/callback/" "?a=1" "x"
    (fun _ => []) (by decide) (by decide)
    (Or.inr ⟨rfl, by decide⟩) (Or.inr (Or.inl rfl)) (by decide)
  simpa using h

/-- Percent-decoding leaves an ordinary character in place. -/
lemma decodeChars_cons {c : Char} {rest : List Char} (h1 : c ≠ '+') (h2 : c ≠ '%') :
    decodeChars (c :: rest) = c :: decodeChars rest := by
  rw [decodeChars.eq_def]
  split
  · rename_i heq
    exact absurd heq (by simp)
  · rename_i heq
    injection heq with ha hb
    exact absurd ha h1
  · rename_i heq
    injection heq with ha hb
    exact absurd ha h2
  · rename_i heq
    injection heq with ha hb
    subst ha
    subst hb
    rfl

/-- Percent-decoding is the identity on text free of '%' and '+'. -/
lemma decodeChars_id {l : List Char} (h : ∀ c ∈ l, c ≠ '%' ∧ c ≠ '+') :
    decodeChars l = l := by
  induction l with
  | nil => rfl
  | cons c rest ih =>
    rw [decodeChars_cons (h c (by simp)).2 (h c (by simp)).1,
      ih (fun c hc => h c (by simp [hc]))]

/-- Splitting on '&' keeps an ampersand-free query whole. -/
lemma splitAmp_no_amp {l : List Char} (h : '&' ∉ l) : splitAmp l = [l] := by
  induction l with
  | nil => rfl
  | cons c rest ih =>
    have hc : (c == '&') = false :=
      beq_eq_false_iff_ne.mpr (fun e => h (by rw [e]; exact List.mem_cons_self _ _))
    rw [splitAmp, hc]
    simp only [Bool.false_eq_true, if_false]
    rw [ih (fun hm => h (List.mem_cons_of_mem _ hm))]

/-- Splitting on '&' cuts at the first ampersand after an ampersand-free
segment. -/
lemma splitAmp_append {l₁ l₂ : List Char} (h : '&' ∉ l₁) :
    splitAmp (l₁ ++ '&' :: l₂) = l₁ :: splitAmp l₂ := by
  induction l₁ with
  | nil =>
    show splitAmp ('&' :: l₂) = [] :: splitAmp l₂
    rw [splitAmp]
    simp
  | cons c rest ih =>
    have hc : (c == '&') = false :=
      beq_eq_false_iff_ne.mpr (fun e => h (by rw [e]; exact List.mem_cons_self _ _))
    show splitAmp (c :: (rest ++ '&' :: l₂)) = (c :: rest) :: splitAmp l₂
    rw [splitAmp, hc]
    simp only [Bool.false_eq_true, if_false]
    rw [ih (fun hm => h (List.mem_cons_of_mem _ hm))]

/-- Looking up x and u in the query "x=N&u=F" built by the URI builder,
when the nonce N and the flag F use no query-delimiter characters. -/
lemma searchParamsGet_xu (N F : List Char)
    (hN : ∀ c ∈ N, c ≠ '&' ∧ c ≠ '=' ∧ c ≠ '%' ∧ c ≠ '+')
    (hF : ∀ c ∈ F, c ≠ '&' ∧ c ≠ '=' ∧ c ≠ '%' ∧ c ≠ '+') :
    searchParamsGet ⟨'x' :: '=' :: (N ++ '&' :: 'u' :: '=' :: F)⟩ "x" = some ⟨N⟩ ∧
    searchParamsGet ⟨'x' :: '=' :: (N ++ '&' :: 'u' :: '=' :: F)⟩ "u" = some ⟨F⟩ := by
  have hsplit : splitAmp ('x' :: '=' :: (N ++ '&' :: 'u' :: '=' :: F)) =
      ('x' :: '=' :: N) :: [('u' :: '=' :: F)] := by
    have h1 : '&' ∉ 'x' :: '=' :: N := by
      intro hm
      rcases List.mem_cons.mp hm with he | hm
      · exact absurd he (by decide)
      · rcases List.mem_cons.mp hm with he | hm
        · exact absurd he (by decide)
        · exact (hN '&' hm).1 rfl
    have h2 : '&' ∉ 'u' :: '=' :: F := by
      intro hm
      rcases List.mem_cons.mp hm with he | hm
      · exact absurd he (by decide)
      · rcases List.mem_cons.mp hm with he | hm
        · exact absurd he (by decide)
        · exact (hF '&' hm).1 rfl
    show splitAmp (('x' :: '=' :: N) ++ '&' :: ('u' :: '=' :: F)) = _
    rw [splitAmp_append h1, splitAmp_no_amp h2]
  have hkey1 : pairKeyChars ('x' :: '=' :: N) = ['x'] := by
    unfold pairKeyChars
    rw [List.takeWhile_cons_of_pos (by decide), List.takeWhile_cons_of_neg (by decide)]
  have hkey2 : pairKeyChars ('u' :: '=' :: F) = ['u'] := by
    unfold pairKeyChars
    rw [List.takeWhile_cons_of_pos (by decide), List.takeWhile_cons_of_neg (by decide)]
  have hval1 : pairValChars ('x' :: '=' :: N) = N := by
    unfold pairValChars
    rw [List.dropWhile_cons_of_pos (by decide), List.dropWhile_cons_of_neg (by decide)]
  have hval2 : pairValChars ('u' :: '=' :: F) = F := by
    unfold pairValChars
    rw [List.dropWhile_cons_of_pos (by decide), List.dropWhile_cons_of_neg (by decide)]
  have hNid : decodeChars N = N :=
    decodeChars_id (fun c hc => ⟨(hN c hc).2.2.1, (hN c hc).2.2.2⟩)
  have hFid : decodeChars F = F :=
    decodeChars_id (fun c hc => ⟨(hF c hc).2.2.1, (hF c hc).2.2.2⟩)
  have hfindx : List.find? (fun p => decodeChars (pairKeyChars p) == "x".data)
      ['x' :: '=' :: N, 'u' :: '=' :: F] = some ('x' :: '=' :: N) :=
    List.find?_cons_of_pos _ (by
      show (decodeChars (pairKeyChars ('x' :: '=' :: N)) == "x".data) = true
      rw [hkey1]
      rfl)
  have hfindu : List.find? (fun p => decodeChars (pairKeyChars p) == "u".data)
      ['x' :: '=' :: N, 'u' :: '=' :: F] = some ('u' :: '=' :: F) := by
    rw [List.find?_cons_of_neg _ (by
      show ¬(decodeChars (pairKeyChars ('x' :: '=' :: N)) == "u".data) = true
      rw [hkey1]
      decide)]
    exact List.find?_cons_of_pos _ (by
      show (decodeChars (pairKeyChars ('u' :: '=' :: F)) == "u".data) = true
      rw [hkey2]
      rfl)
  constructor
  · unfold searchParamsGet
    rw [show (⟨'x' :: '=' :: (N ++ '&' :: 'u' :: '=' :: F)⟩ : String).data =
      'x' :: '=' :: (N ++ '&' :: 'u' :: '=' :: F) from rfl, hsplit]
    simp only [List.filter_cons, List.isEmpty_cons, Bool.not_false, if_true,
      List.filter_nil, hfindx]
    rw [hval1, hNid]
  · unfold searchParamsGet
    rw [show (⟨'x' :: '=' :: (N ++ '&' :: 'u' :: '=' :: F)⟩ : String).data =
      'x' :: '=' :: (N ++ '&' :: 'u' :: '=' :: F) from rfl, hsplit]
    simp only [List.filter_cons, List.isEmpty_cons, Bool.not_false, if_true,
      List.filter_nil, hfindu]
    rw [hval2, hFid]

/-- Membership in a tail implies membership in the list. -/
lemma mem_of_mem_tail {l : List Char} {c : Char} (h : c ∈ l.tail) : c ∈ l := by
  cases l with
  | nil => exact absurd h (by simp)
  | cons a t => exact List.mem_cons_of_mem _ h

/-- Default-port stripping returns either the port-stripped base or the host
unchanged. -/
lemma stripDefaultPort_cases (s : String) (A : List Char) :
    stripDefaultPort s A =
      ((A.reverse.dropWhile (fun c => !(c == ':'))).tail).reverse ∨
    stripDefaultPort s A = A := by
  unfold stripDefaultPort
  by_cases h1 : A.contains ':' = true
  · rw [if_pos h1]
    by_cases h2 : (A.reverse.takeWhile (fun c => !(c == ':'))).reverse = [] ∨
        (s = "http" ∧ (A.reverse.takeWhile (fun c => !(c == ':'))).reverse = ['8', '0']) ∨
        (s = "https" ∧
          (A.reverse.takeWhile (fun c => !(c == ':'))).reverse = ['4', '4', '3'])
    · left
      exact if_pos h2
    · right
      exact if_neg h2
  · rw [if_neg h1]
    right
    rfl

/-- Characters of the stripped host come from the original authority. -/
lemma mem_stripDefaultPort {s : String} {A : List Char} {c : Char}
    (h : c ∈ stripDefaultPort s A) : c ∈ A := by
  rcases stripDefaultPort_cases s A with he | he
  · rw [he] at h
    exact List.mem_reverse.mp (mem_dropWhile_mem (mem_of_mem_tail (List.mem_reverse.mp h)))
  · rw [he] at h
    exact h

/-- A non-empty `takeWhile` result starts with the head of the list. -/
lemma takeWhile_eq_cons_head {p : Char → Bool} {l : List Char} {c : Char}
    {t : List Char} (h : l.takeWhile p = c :: t) : l.head? = some c := by
  cases l with
  | nil => exact absurd h (by simp)
  | cons a l' =>
    rw [List.takeWhile_cons] at h
    by_cases hp : p a
    · rw [if_pos hp] at h
      injection h with h1 h2
      rw [List.head?_cons, h1]
    · rw [if_neg hp] at h
      exact absurd h (by simp)

/-- A character failing the authority predicate but passing the path
predicate is the slash. -/
lemma slash_of_auth_path {c : Char} (h1 : authorityChar c = false)
    (h2 : pathChar c = true) : c = '/' := by
  simp only [authorityChar, Bool.not_eq_false', Bool.or_eq_true, beq_iff_eq] at h1
  simp only [pathChar, Bool.not_eq_true', Bool.or_eq_false_iff,
    beq_eq_false_iff_ne] at h2
  rcases h1 with (h | h) | h
  · exact h
  · exact absurd h h2.1
  · exact absurd h h2.2

/-- Structural facts about any successful parse: the host is non-empty and
free of authority delimiters and of '@', the pathname starts with '/' and
contains no '?' or '#'. -/
lemma parseURL_inv {s : String} {r : URLRecord} (h : parseURL s = some r) :
    r.host.data ≠ [] ∧
    (∀ c ∈ r.host.data, authorityChar c = true ∧ (c == '@') = false) ∧
    r.pathname.data.head? = some '/' ∧
    (∀ c ∈ r.pathname.data, pathChar c = true) := by
  unfold parseURL parseURLChars at h
  split at h
  · exact absurd h (by simp)
  · rename_i x0 afterColon heqColon
    cases hsp : List.takeWhile (fun c => !(c == ':')) s.data with
    | nil =>
      rw [hsp] at h
      exact absurd h (by simp)
    | cons c0 restS =>
      rw [hsp] at h
      split at h
      · exact absurd h (by simp)
      · split at h
        · exact absurd h (by simp)
        · split at h
          · exact absurd h (by simp)
          · split at h
            · exact absurd h (by simp)
            · split at h
              · exact absurd h (by simp)
              · rename_i hauthne hhostne
                injection h with h
                subst h
                refine ⟨hhostne, ?_, ?_, ?_⟩
                · intro c hc
                  have hc1 := mem_stripDefaultPort hc
                  have hc2 := List.mem_reverse.mp hc1
                  have hc3 := mem_takeWhile_sat hc2
                  have hc4 := List.mem_reverse.mp (mem_takeWhile_mem hc2)
                  exact ⟨mem_takeWhile_sat hc4, by simpa using hc3⟩
                · by_cases hp : List.takeWhile pathChar (List.dropWhile authorityChar
                      (List.dropWhile (fun c => c == '/') afterColon)) = []
                  · rw [if_pos hp]
                    rfl
                  · rw [if_neg hp]
                    obtain ⟨c, t, hct⟩ := List.exists_cons_of_ne_nil hp
                    rw [hct, List.head?_cons]
                    have hhd := takeWhile_eq_cons_head hct
                    obtain ⟨t2, ht2⟩ := head?_some_eq_cons hhd
                    have hauth := dropWhile_head_neg ht2
                    have hpath : pathChar c = true :=
                      mem_takeWhile_sat (hct ▸ List.mem_cons_self c t)
                    rw [slash_of_auth_path hauth hpath]
                · intro c hc
                  by_cases hp : List.takeWhile pathChar (List.dropWhile authorityChar
                      (List.dropWhile (fun c => c == '/') afterColon)) = []
                  · rw [if_pos hp] at hc
                    rcases List.mem_cons.mp hc with rfl | hc
                    · rfl
                    · exact absurd hc (by simp)
                  · rw [if_neg hp] at hc
                    exact mem_takeWhile_sat hc

/-- Core of the round-trip: verifying the URI assembled from a parsed
endpoint record, with matching expectations and a true-returning signature
capability, succeeds and returns the payload's nonce — provided the embedded
host is unchanged by default-port stripping under the substituted http
scheme. -/
lemma roundtrip_core (addr sig n E : String) (r : URLRecord) (F : List Char)
    (haddr : addr ≠ "") (hsig : sig ≠ "") (hsafe : querySafe n)
    (hp : parseURL E = some r)
    (hport : stripDefaultPort "http" r.host.data = r.host.data)
    (hF : F = ['0'] ∨ F = ['1'])
    (hs1 : F = ['1'] → r.protocol = "http:")
    (hs0 : F = ['0'] → r.protocol = "https:") :
    verifyDigiIDCallback
      ⟨addr, "digiid://" ++ (r.host ++ r.pathname) ++ "?x=" ++ n ++ "&u=" ++ ⟨F⟩, sig⟩
      ⟨.str E, some n⟩ (fun _ _ _ => .ok true) = .ok ⟨true, addr, n⟩ := by
  obtain ⟨hhne, hhc, hphead, hpc⟩ := parseURL_inv hp
  obtain ⟨pt, hpt⟩ := head?_some_eq_cons hphead
  have hFc : ∀ c ∈ F, c ≠ '&' ∧ c ≠ '=' ∧ c ≠ '#' ∧ c ≠ '%' ∧ c ≠ '+' := by
    rcases hF with rfl | rfl <;> decide
  have hud : ("digiid://" ++ (r.host ++ r.pathname) ++ "?x=" ++ n ++ "&u=" ++
      (⟨F⟩ : String)).data =
      'd' :: 'i' :: 'g' :: 'i' :: 'i' :: 'd' :: ':' :: '/' :: '/' ::
        (r.host.data ++ (r.pathname.data ++ '?' :: 'x' :: '=' ::
          (n.data ++ '&' :: 'u' :: '=' :: F))) := by
    simp only [String.data_append, List.append_assoc]
    rfl
  have hpars : digiidToParsable ("digiid://" ++ (r.host ++ r.pathname) ++ "?x=" ++ n ++
      "&u=" ++ (⟨F⟩ : String)) =
      ⟨'h' :: 't' :: 't' :: 'p' :: ':' :: '/' :: '/' ::
        (r.host.data ++ (r.pathname.data ++ '?' :: 'x' :: '=' ::
          (n.data ++ '&' :: 'u' :: '=' :: F)))⟩ := by
    unfold digiidToParsable
    rw [hud]
    rfl
  have hT : (r.pathname.data ++ '?' :: 'x' :: '=' :: (n.data ++ '&' :: 'u' :: '=' :: F)) =
      [] ∨ ∃ t0 T', (r.pathname.data ++ '?' :: 'x' :: '=' ::
        (n.data ++ '&' :: 'u' :: '=' :: F)) = t0 :: T' ∧ authorityChar t0 = false := by
    right
    exact ⟨'/', pt ++ '?' :: 'x' :: '=' :: (n.data ++ '&' :: 'u' :: '=' :: F),
      by rw [hpt]; rfl, by decide⟩
  have hreparse : parseURL (digiidToParsable ("digiid://" ++ (r.host ++ r.pathname) ++
      "?x=" ++ n ++ "&u=" ++ (⟨F⟩ : String))) =
      some ⟨⟨'h' :: "ttp".data⟩ ++ ":", ⟨r.host.data⟩,
        ⟨if (r.pathname.data ++ '?' :: 'x' :: '=' ::
            (n.data ++ '&' :: 'u' :: '=' :: F)).takeWhile pathChar = [] then ['/']
          else (r.pathname.data ++ '?' :: 'x' :: '=' ::
            (n.data ++ '&' :: 'u' :: '=' :: F)).takeWhile pathChar⟩,
        ⟨match (r.pathname.data ++ '?' :: 'x' :: '=' ::
            (n.data ++ '&' :: 'u' :: '=' :: F)).dropWhile pathChar with
          | '?' :: qs => qs.takeWhile (fun c => !(c == '#'))
          | _ => []⟩⟩ := by
    rw [hpars]
    exact parseURLChars_assembled 'h' "ttp".data r.host.data
      (r.pathname.data ++ '?' :: 'x' :: '=' :: (n.data ++ '&' :: 'u' :: '=' :: F))
      (by decide) (by decide) (by decide) hhne
      (fun c hc => (hhc c hc).1)
      (fun c hc => (hhc c hc).2)
      hT hport
  have htake : (r.pathname.data ++ '?' :: 'x' :: '=' ::
      (n.data ++ '&' :: 'u' :: '=' :: F)).takeWhile pathChar = r.pathname.data := by
    rw [takeWhile_append_all hpc, List.takeWhile_cons_of_neg (by decide),
      List.append_nil]
  have hsearch : (match (r.pathname.data ++ '?' :: 'x' :: '=' ::
      (n.data ++ '&' :: 'u' :: '=' :: F)).dropWhile pathChar with
      | '?' :: qs => qs.takeWhile (fun c => !(c == '#'))
      | _ => []) = 'x' :: '=' :: (n.data ++ '&' :: 'u' :: '=' :: F) := by
    rw [dropWhile_append_all hpc, List.dropWhile_cons_of_neg (by decide)]
    show ('x' :: '=' :: (n.data ++ '&' :: 'u' :: '=' :: F)).takeWhile
      (fun c => !(c == '#')) = _
    apply takeWhile_eq_self_all
    intro c hc
    rcases List.mem_cons.mp hc with rfl | hc
    · decide
    · rcases List.mem_cons.mp hc with rfl | hc
      · decide
      · rcases List.mem_append.mp hc with hc | hc
        · simp [(hsafe c hc).2.2.1]
        · rcases List.mem_cons.mp hc with rfl | hc
          · decide
          · rcases List.mem_cons.mp hc with rfl | hc
            · decide
            · rcases List.mem_cons.mp hc with rfl | hc
              · decide
              · simp [(hFc c hc).2.2.1]
  rw [htake, hsearch] at hreparse
  have hpne : r.pathname.data ≠ [] := by
    rw [hpt]
    simp
  rw [if_neg hpne] at hreparse
  obtain ⟨hgx, hgu⟩ := searchParamsGet_xu n.data F
    (fun c hc => ⟨(hsafe c hc).1, (hsafe c hc).2.1, (hsafe c hc).2.2.2.1,
      (hsafe c hc).2.2.2.2⟩)
    (fun c hc => ⟨(hFc c hc).1, (hFc c hc).2.1, (hFc c hc).2.2.2.1, (hFc c hc).2.2.2.2⟩)
  rw [verify_reduces _ (some n) _ E _ r ⟨n.data⟩ ⟨F⟩ haddr hsig hreparse hgx hgu hp]
  unfold expectedStage
  rw [if_neg (by intro hne; exact hne rfl)]
  rcases hF with rfl | rfl
  · rw [if_neg (by intro hand; exact absurd hand.1 (by decide)),
      if_neg (by intro hand; exact hand.2 (hs0 rfl))]
    simp only [nonceStage]
    rw [if_neg (by intro hand; exact hand.2 rfl)]
    rfl
  · rw [if_neg (by intro hand; exact hand.2 (hs1 rfl)),
      if_neg (by intro hand; exact absurd hand.1 (by decide))]
    simp only [nonceStage]
    rw [if_neg (by intro hand; exact hand.2 rfl)]
    rfl

/-- Claim C6 (amended): round-trip of build then verify.  For every options
record accepted by the builder with a non-empty query-safe caller-supplied
nonce, and whose endpoint host is unchanged by default-port stripping under
the substituted plaintext scheme (i.e. the endpoint does not combine https
with an explicit port 80 — the case the counterexample exhibits), verifying
the built URI against the same endpoint and nonce with a signature
capability returning true resolves with isValid, the payload's address, and
the nonce taken from the payload's URI. -/
theorem claim_C6_round_trip (opts : DigiIDUriOptions) (gen : Nat → List Nat)
    (uri addr sig n : String) (r : URLRecord)
    (haddr : addr ≠ "") (hsig : sig ≠ "")
    (hnonce : opts.nonce = some n) (hn : n ≠ "") (hsafe : querySafe n)
    (hp : parseURL opts.callbackUrl = some r)
    (hport : stripDefaultPort "http" r.host.data = r.host.data)
    (hgen : generateDigiIDUri opts gen = .ok uri) :
    verifyDigiIDCallback ⟨addr, uri, sig⟩ ⟨.str opts.callbackUrl, some n⟩
      (fun _ _ _ => .ok true) = .ok ⟨true, addr, n⟩ := by
  unfold generateDigiIDUri at hgen
  rw [if_neg (parseURL_ne_empty hp), hp] at hgen
  dsimp only at hgen
  rw [hnonce] at hgen
  dsimp only at hgen
  rw [if_neg hn] at hgen
  cases hunsec : opts.unsecure with
  | false =>
    rw [hunsec] at hgen
    by_cases hproto : r.protocol = "https:"
    · rw [if_neg (by simp), if_neg (by simp [hproto])] at hgen
      injection hgen with hgen
      subst hgen
      exact roundtrip_core addr sig n opts.callbackUrl r ['0'] haddr hsig hsafe hp
        hport (Or.inl rfl) (fun h => absurd h (by decide)) (fun _ => hproto)
    · rw [if_neg (by simp), if_pos ⟨by simp, hproto⟩] at hgen
      exact Except.noConfusion hgen
  | true =>
    rw [hunsec] at hgen
    by_cases hproto : r.protocol = "http:"
    · rw [if_neg (by simp [hproto]), if_neg (by simp)] at hgen
      injection hgen with hgen
      subst hgen
      exact roundtrip_core addr sig n opts.callbackUrl r ['1'] haddr hsig hsafe hp
        hport (Or.inr rfl) (fun _ => hproto) (fun h => absurd h (by decide))
    · rw [if_pos ⟨by simp, hproto⟩] at hgen
      exact Except.noConfusion hgen

/-- Witness for the amended C6: a concrete https endpoint and nonce round-trip
to a successful verification carrying the payload's nonce. -/
theorem claim_C6_witness :
    verifyDigiIDCallback
      ⟨"DAddr", "digiid://example.com/callback?x=abc123&u=0", "Sig"⟩
      ⟨.str "https://example.com/callback", some "abc123"⟩
      (fun _ _ _ => .ok true) = .ok ⟨true, "DAddr", "abc123"⟩ := by
  exact claim_C6_round_trip ⟨"https://example.com/callback", some "abc123", false⟩
    (fun _ => []) "digiid://example.com/callback?x=abc123&u=0" "DAddr" "Sig" "abc123"
    ⟨"https:", "example.com", "/callback", ""⟩ (by decide) (by decide) rfl
    (by decide) (by unfold querySafe; decide) (by decide) (by decide) rfl
